import Mathlib

/-!
Shallow embedding of the vector-index subsystem of the
`documents-vector-search` repository:

* `src/main/indexes/indexers/faiss_indexer.py`  (`FaissIndexer`)
* `src/main/indexes/indexer_factory.py`         (`create_indexer`, `load_indexer`)
* `src/main/indexes/embeddings/sentence_embeder.py` (`_get_or_load_model`,
  `SentenceEmbedder`)

Modelling conventions:

* Embedding vectors are `List Int` (exact arithmetic stands in for the
  float32 vectors; the claims under study are about which ids are returned,
  counts and control flow, not float rounding).
* A FAISS native index (`faiss.IndexIDMap(faiss.IndexFlatL2 d)`, or whatever
  `faiss.read_index` / `faiss.deserialize_index` reconstructs) is modelled as
  the list of its `(id, vector)` records plus its `is_trained` flag and
  dimension.  FAISS serialization is lossless, so a serialized blob is
  modelled as the index it denotes.
* Python exceptions become `Except PyError`; `raise e` re-raising the
  original exception is propagation of the same `PyError` value.
* The filesystem is a parameter `fs : String → Option (Except PyError
  FaissNativeIndex)`: `none` means the path does not exist (`os.path.exists`
  is false), `some (.error e)` means `faiss.read_index` at that path raises
  `e`, `some (.ok idx)` means it returns `idx`.
* Python truthiness of an optional string argument (`if index_file_path and
  ...`) is `none`/`""` falsy, any other string truthy.
-/

/-- Error values raised by the Python code under study.  `runtimeError` and
`valueError` are the two exception classes the repository raises itself;
`externalError` stands for an arbitrary exception raised by a library call
such as `faiss.read_index` (claim C4 is about propagating it unchanged). -/
inductive PyError where
  | runtimeError (msg : String)
  | valueError (msg : String)
  | externalError (msg : String)
deriving DecidableEq, Repr

/-- Squared L2 distance between two vectors, the metric of
`faiss.IndexFlatL2` (FAISS reports squared Euclidean distances). -/
def sqDist (u v : List Int) : Int :=
  ((u.zip v).map (fun p => (p.1 - p.2) ^ 2)).sum

/-- A FAISS native index as the Python code observes it: the records it
stores (external id paired with vector), its dimension, and the
`is_trained` attribute.  For `IndexIDMap(IndexFlatL2 d)` — the only index
type this repository ever constructs or writes — `is_trained` is `true`
(flat indexes need no training). -/
structure FaissNativeIndex where
  dim : Nat
  records : List (Int × List Int)
  is_trained : Bool
deriving Repr

/-- The index built by `faiss.IndexIDMap(faiss.IndexFlatL2(d))` in the
constructor's "create new" branch: empty, dimension `d`, trained. -/
def newIdMapFlatL2 (d : Nat) : FaissNativeIndex :=
  { dim := d, records := [], is_trained := true }

/-- Every FAISS `Index` object exposes an `is_trained` attribute, so the
`hasattr(self.faiss_index, 'is_trained')` probe in `index_texts` is always
true. -/
def hasattrIsTrained (_ : FaissNativeIndex) : Bool := true

/-- The native `add_with_ids(embeddings, ids)`: appends the records
`ids[i] ↦ embeddings[i]`. -/
def FaissNativeIndex.add_with_ids (idx : FaissNativeIndex)
    (vecs : List (List Int)) (ids : List Int) : FaissNativeIndex :=
  { idx with records := idx.records ++ ids.zip vecs }

/-- The native `remove_ids(ids)`: drops every record whose id occurs in
`ids`; ids not present are simply not matched (no error). -/
def FaissNativeIndex.remove_ids (idx : FaissNativeIndex)
    (ids : List Int) : FaissNativeIndex :=
  { idx with records := idx.records.filter (fun r => !ids.contains r.1) }

/-- Ordering used by the flat scan: compare scored records by distance
(first component). -/
def distLE (a b : Int × Int) : Prop := a.1 ≤ b.1

instance : DecidableRel distLE := fun a b => inferInstanceAs (Decidable (a.1 ≤ b.1))

instance : IsTotal (Int × Int) distLE := ⟨fun a b => le_total a.1 b.1⟩

instance : IsTrans (Int × Int) distLE := ⟨fun _ _ _ => le_trans⟩

/-- Distance value FAISS writes into the unused result slots when the index
holds fewer than `k` records; the contract leaves it undefined, the model
fixes an arbitrary value. -/
def paddingDistance : Int := 0

/-- The native `search(query, k)` of a flat L2 index with an id map: score
every stored record by squared L2 distance to the query, return the `k`
best as (distance, id) pairs in ascending distance order, padding with
sentinel id `-1` when fewer than `k` records exist. -/
def FaissNativeIndex.search (idx : FaissNativeIndex) (q : List Int) (k : Nat) :
    List (Int × Int) :=
  let scored := idx.records.map (fun r => (sqDist q r.2, r.1))
  let sorted := scored.insertionSort distLE
  sorted.take k ++ List.replicate (k - sorted.length) (paddingDistance, -1)

/-- The native `ntotal` attribute: number of stored records. -/
def FaissNativeIndex.ntotal (idx : FaissNativeIndex) : Nat :=
  idx.records.length

/-- A serialized FAISS index (`faiss.serialize_index` output / the byte
blob kept in the byte store).  FAISS serialization is lossless, so the blob
is modelled by the index it denotes. -/
structure Blob where
  denotes : FaissNativeIndex
deriving Repr

/-- Python `faiss.serialize_index`. -/
def serialize_index (idx : FaissNativeIndex) : Blob := ⟨idx⟩

/-- Python `faiss.deserialize_index`. -/
def deserialize_index (b : Blob) : FaissNativeIndex := b.denotes

/-- A `SentenceEmbedder` as the indexer uses it: the model name it holds
and the behaviour of the (lazily loaded, process-cached) underlying
sentence-transformer — its `encode` function and its embedding dimension.
The works of `_get_or_load_model` itself are modelled separately for the
concurrency claim. -/
structure SentenceEmbedder where
  model_name : String
  encode : String → List Int
  dims : Nat

/-- Python `SentenceEmbedder.embed(text)` on a single text. -/
def SentenceEmbedder.embed (e : SentenceEmbedder) (text : String) : List Int :=
  e.encode text

/-- Python `SentenceEmbedder.embed(texts)` on a batch: one vector per
text. -/
def SentenceEmbedder.embedBatch (e : SentenceEmbedder) (texts : List String) :
    List (List Int) :=
  texts.map e.encode

/-- Python `SentenceEmbedder.get_number_of_dimensions()`. -/
def SentenceEmbedder.get_number_of_dimensions (e : SentenceEmbedder) : Nat :=
  e.dims

/-- Filesystem as `faiss.read_index` sees it: `none` = path absent,
`some (.error e)` = reading the path raises `e`, `some (.ok idx)` = the
path holds index `idx`. -/
def Filesystem : Type := String → Option (Except PyError FaissNativeIndex)

/-- Python `os.path.exists` on the model filesystem. -/
def pathExists (fs : Filesystem) (p : String) : Bool :=
  (fs p).isSome

/-- Truthiness of the optional `index_file_path` argument (`None` and the
empty string are falsy in Python). -/
def pyTruthy : Option String → Bool
  | none => false
  | some s => s ≠ ""

/-- The `FaissIndexer` object: its constructor arguments that are retained
(`self.name`, `self.embedder`, `self._use_memory_map`,
`self._index_file_path`) and the `self.faiss_index` it built. -/
structure FaissIndexer where
  name : String
  embedder : SentenceEmbedder
  use_memory_map : Bool
  index_file_path : Option String
  faiss_index : FaissNativeIndex

/-- The `FaissIndexer.__init__` constructor, translated branch for branch:

1. if `index_file_path` is truthy, `use_memory_map` is set and the file
   exists, load via `faiss.read_index`; if that raises, fall back to
   `faiss.deserialize_index(serialized_index)` when a blob was given,
   otherwise re-raise the original exception;
2. otherwise, if `serialized_index is not None`, deserialize it;
3. otherwise create a fresh `IndexIDMap(IndexFlatL2(dims))`. -/
def FaissIndexer.init (fs : Filesystem) (name : String)
    (embedder : SentenceEmbedder) (serialized_index : Option Blob)
    (index_file_path : Option String) (use_memory_map : Bool) :
    Except PyError FaissIndexer :=
  let mk (idx : FaissNativeIndex) : FaissIndexer :=
    { name := name, embedder := embedder, use_memory_map := use_memory_map
      index_file_path := index_file_path, faiss_index := idx }
  if pyTruthy index_file_path && use_memory_map
      && (index_file_path.elim false (fun p => pathExists fs p)) then
    match index_file_path.bind fs with
    | some (.ok idx) => .ok (mk idx)
    | some (.error e) =>
        match serialized_index with
        | some blob => .ok (mk (deserialize_index blob))
        | none => .error e
    | none => .error (.externalError "unreachable: existence was checked")
  else if serialized_index.isSome then
    match serialized_index with
    | some blob => .ok (mk (deserialize_index blob))
    | none => .error (.externalError "unreachable: isSome was checked")
  else
    .ok (mk (newIdMapFlatL2 embedder.get_number_of_dimensions))

/-- Python `FaissIndexer.get_name`. -/
def FaissIndexer.get_name (x : FaissIndexer) : String := x.name

/-- Python `FaissIndexer.index_texts(ids, texts)`.  The second component
counts how many times `self.embedder.embed` was invoked during the call
(0 when the guard raised first, 1 when the batch was embedded), so that
"no embedding computation is performed" is statable.  The guard is the
source's literal condition: `self._use_memory_map and
hasattr(self.faiss_index, 'is_trained') and not self.faiss_index.is_trained`. -/
def FaissIndexer.index_texts (x : FaissIndexer) (ids : List Int)
    (texts : List String) : Except PyError FaissIndexer × Nat :=
  if x.use_memory_map && hasattrIsTrained x.faiss_index
      && !x.faiss_index.is_trained then
    (.error (.runtimeError "Cannot write to memory-mapped read-only index"), 0)
  else
    (.ok { x with
            faiss_index := x.faiss_index.add_with_ids (x.embedder.embedBatch texts) ids },
     1)

/-- Python `FaissIndexer.remove_ids(ids)`: raises whenever
`self._use_memory_map` is set, else delegates to the native
`remove_ids`. -/
def FaissIndexer.remove_ids (x : FaissIndexer) (ids : List Int) :
    Except PyError FaissIndexer :=
  if x.use_memory_map then
    .error (.runtimeError "Cannot modify memory-mapped read-only index")
  else
    .ok { x with faiss_index := x.faiss_index.remove_ids ids }

/-- Python `FaissIndexer.serialize()`. -/
def FaissIndexer.serialize (x : FaissIndexer) : Blob :=
  serialize_index x.faiss_index

/-- Python `FaissIndexer.save_to_file(file_path)`: `faiss.write_index` to
the path; returns the updated filesystem. -/
def FaissIndexer.save_to_file (x : FaissIndexer) (fs : Filesystem)
    (file_path : String) : Filesystem :=
  fun p => if p = file_path then some (.ok x.faiss_index) else fs p

/-- Python `FaissIndexer.search(text, number_of_results)`: embed the query
text and search the native index. -/
def FaissIndexer.search (x : FaissIndexer) (text : String)
    (number_of_results : Nat := 10) : List (Int × Int) :=
  x.faiss_index.search (x.embedder.embed text) number_of_results

/-- Python `FaissIndexer.get_size()`. -/
def FaissIndexer.get_size (x : FaissIndexer) : Nat :=
  x.faiss_index.ntotal

/-- Observable side effects of the factory functions, in the order they
happen, so that "fails before any I/O and before any embedding model is
constructed" (claim C5) is statable: a file-existence probe, a byte-store
read, a `faiss.read_index` file read, and a `SentenceEmbedder(...)`
construction. -/
inductive Effect where
  | checkPathExists (p : String)
  | readBinFile (key : String)
  | readIndexFile (p : String)
  | constructEmbedder (model_name : String)
deriving DecidableEq, Repr

/-- The external world the factory needs: what each sentence-transformer
model would do once loaded (its `encode` and its dimension), keyed by model
name.  Models are loaded lazily, so building a `SentenceEmbedder` performs
no I/O; the universe only fixes what the embedder will compute. -/
structure ModelUniverse where
  encode : String → String → List Int
  dim : String → Nat

/-- Python `SentenceEmbedder(model_name=...)` construction. -/
def mkSentenceEmbedder (mu : ModelUniverse) (model_name : String) :
    SentenceEmbedder :=
  { model_name := model_name, encode := mu.encode model_name
    dims := mu.dim model_name }

/-- The `DiskPersister` as `load_indexer` uses it: its `base_path` and its
`read_bin_file(key)` returning the raw blob stored at `key`. -/
structure Persister where
  base_path : String
  read_bin_file : String → Blob

/-- Python `os.path.join(base, rel)` for the shapes used at the call sites
(absolute-ish base, relative second argument). -/
def pathJoin (base rel : String) : String := base ++ "/" ++ rel

/-- Python `create_indexer(indexer_name)`, translated condition for
condition, paired with the trace of effects it performed.  A known name
builds a `SentenceEmbedder` and a fresh `FaissIndexer` with the
constructor's defaults (`serialized_index=None`, `index_file_path=None`,
`use_memory_map=True`); an unknown name raises `ValueError` having done
nothing. -/
def create_indexer (mu : ModelUniverse) (fs : Filesystem)
    (indexer_name : String) : Except PyError FaissIndexer × List Effect :=
  if indexer_name = "indexer_FAISS_IndexFlatL2__embeddings_all-MiniLM-L6-v2" then
    (FaissIndexer.init fs indexer_name
      (mkSentenceEmbedder mu "sentence-transformers/all-MiniLM-L6-v2") none none true,
     [.constructEmbedder "sentence-transformers/all-MiniLM-L6-v2"])
  else if indexer_name = "indexer_FAISS_IndexFlatL2__embeddings_all-mpnet-base-v2" then
    (FaissIndexer.init fs indexer_name
      (mkSentenceEmbedder mu "sentence-transformers/all-mpnet-base-v2") none none true,
     [.constructEmbedder "sentence-transformers/all-mpnet-base-v2"])
  else if indexer_name = "indexer_FAISS_IndexFlatL2__embeddings_multi-qa-distilbert-cos-v1" then
    (FaissIndexer.init fs indexer_name
      (mkSentenceEmbedder mu "sentence-transformers/multi-qa-distilbert-cos-v1") none none true,
     [.constructEmbedder "sentence-transformers/multi-qa-distilbert-cos-v1"])
  else
    (.error (.valueError ("Unknown indexer name: " ++ indexer_name)), [])

/-- The `if/elif` model-name chain of `load_indexer` (lines 32-39). -/
def loadIndexerModelName (indexer_name : String) : Option String :=
  if indexer_name = "indexer_FAISS_IndexFlatL2__embeddings_all-MiniLM-L6-v2" then
    some "sentence-transformers/all-MiniLM-L6-v2"
  else if indexer_name = "indexer_FAISS_IndexFlatL2__embeddings_all-mpnet-base-v2" then
    some "sentence-transformers/all-mpnet-base-v2"
  else if indexer_name = "indexer_FAISS_IndexFlatL2__embeddings_multi-qa-distilbert-cos-v1" then
    some "sentence-transformers/multi-qa-distilbert-cos-v1"
  else
    none

/-- Python `load_indexer(indexer_name, collection_name, persister,
use_memory_map=True, read_only=True)`, paired with its effect trace:

* compute the path strings (pure);
* resolve the model name, raising `ValueError` for an unknown name before
  any effect;
* construct the embedder;
* if `use_memory_map and read_only and os.path.exists(index_file_path)`
  (the existence probe runs only when the two booleans hold, by Python
  short-circuiting), build the indexer from the `.faiss` file with
  `use_memory_map=True`;
* otherwise read the raw blob from the byte store and build the indexer
  from it with `use_memory_map=False`. -/
def load_indexer (mu : ModelUniverse) (fs : Filesystem)
    (indexer_name collection_name : String) (persister : Persister)
    (use_memory_map : Bool := true) (read_only : Bool := true) :
    Except PyError FaissIndexer × List Effect :=
  let index_base_path := collection_name ++ "/indexes/" ++ indexer_name
  let index_file_path := pathJoin persister.base_path (index_base_path ++ "/indexer.faiss")
  match loadIndexerModelName indexer_name with
  | none => (.error (.valueError ("Unknown indexer name: " ++ indexer_name)), [])
  | some model_name =>
    let embedder := mkSentenceEmbedder mu model_name
    let probeTrace := if use_memory_map && read_only
      then [Effect.checkPathExists index_file_path] else []
    if use_memory_map && read_only && pathExists fs index_file_path then
      (FaissIndexer.init fs indexer_name embedder none (some index_file_path) true,
       [Effect.constructEmbedder model_name] ++ probeTrace
         ++ [Effect.readIndexFile index_file_path])
    else
      (FaissIndexer.init fs indexer_name embedder
        (some (persister.read_bin_file (index_base_path ++ "/indexer"))) none false,
       [Effect.constructEmbedder model_name] ++ probeTrace
         ++ [Effect.readBinFile (index_base_path ++ "/indexer")])

/-!
Concurrency model of `_get_or_load_model` (sentence_embeder.py lines 4-15).

Each thread runs

```python
if model_name not in _model_cache:          # fast-path check
    with _cache_lock:                       # acquire
        if model_name not in _model_cache:  # recheck under the lock
            _model_cache[model_name] = SentenceTransformer(model_name)  # load
                                            # release on block exit
return _model_cache[model_name]
```

A thread is a program counter plus its `model_name` argument; the system
state is the shared cache dictionary (an association list, most recent
binding first), the lock owner, a log of the loads performed
(`SentenceTransformer(...)` constructions, each producing a fresh instance
identified by a `Nat` token), and the thread pool.  Each atomic step is one
of the dictionary/lock operations above, which are atomic under the Python
GIL; the load itself runs while the lock is held and touches no shared
state besides retaining its fresh instance, so load-and-insert is one
labelled step taken only by the lock owner after a recheck miss.
-/

/-- Program counter of a thread inside `_get_or_load_model`. -/
inductive CachePC where
  | start
  | waitLock
  | recheck
  | loadReady
  | unlockReturn (v : Nat)
  | finished (v : Nat)
deriving DecidableEq, Repr

/-- One thread: the `model_name` it was called with and where it stands. -/
structure CacheThread where
  arg : String
  pc : CachePC
deriving DecidableEq, Repr

/-- Shared state of the process: the module-level `_model_cache` dict, the
`_cache_lock` owner, the log of `SentenceTransformer` constructions
performed so far, a fresh-instance counter, and the threads. -/
structure CacheSys where
  cache : List (String × Nat)
  lock : Option Nat
  loadLog : List (String × Nat)
  nextInstance : Nat
  threads : List CacheThread

/-- Interleaving semantics: one atomic action of one thread. -/
inductive CacheStep : CacheSys → CacheSys → Prop where
  | fastHit (s : CacheSys) (i : Nat) (t : CacheThread) (v : Nat)
      (ht : s.threads[i]? = some t) (hpc : t.pc = .start)
      (hv : s.cache.lookup t.arg = some v) :
      CacheStep s { s with threads := s.threads.set i { t with pc := .finished v } }
  | fastMiss (s : CacheSys) (i : Nat) (t : CacheThread)
      (ht : s.threads[i]? = some t) (hpc : t.pc = .start)
      (hv : s.cache.lookup t.arg = none) :
      CacheStep s { s with threads := s.threads.set i { t with pc := .waitLock } }
  | acquire (s : CacheSys) (i : Nat) (t : CacheThread)
      (ht : s.threads[i]? = some t) (hpc : t.pc = .waitLock)
      (hl : s.lock = none) :
      CacheStep s { s with lock := some i
                           threads := s.threads.set i { t with pc := .recheck } }
  | recheckHit (s : CacheSys) (i : Nat) (t : CacheThread) (v : Nat)
      (ht : s.threads[i]? = some t) (hpc : t.pc = .recheck)
      (hv : s.cache.lookup t.arg = some v) :
      CacheStep s { s with threads := s.threads.set i { t with pc := .unlockReturn v } }
  | recheckMiss (s : CacheSys) (i : Nat) (t : CacheThread)
      (ht : s.threads[i]? = some t) (hpc : t.pc = .recheck)
      (hv : s.cache.lookup t.arg = none) :
      CacheStep s { s with threads := s.threads.set i { t with pc := .loadReady } }
  | load (s : CacheSys) (i : Nat) (t : CacheThread)
      (ht : s.threads[i]? = some t) (hpc : t.pc = .loadReady) :
      CacheStep s { s with
        cache := (t.arg, s.nextInstance) :: s.cache
        loadLog := s.loadLog ++ [(t.arg, s.nextInstance)]
        nextInstance := s.nextInstance + 1
        threads := s.threads.set i { t with pc := .unlockReturn s.nextInstance } }
  | release (s : CacheSys) (i : Nat) (t : CacheThread) (v : Nat)
      (ht : s.threads[i]? = some t) (hpc : t.pc = .unlockReturn v) :
      CacheStep s { s with lock := none
                           threads := s.threads.set i { t with pc := .finished v } }

/-- Program points a thread can only occupy while it owns `_cache_lock`. -/
def CriticalPC : CachePC → Prop
  | .recheck => True
  | .loadReady => True
  | .unlockReturn _ => True
  | _ => False

/-- Initial process state: empty cache, lock free, nothing loaded, every
thread about to enter `_get_or_load_model`. -/
def CacheInit (s : CacheSys) : Prop :=
  s.cache = [] ∧ s.lock = none ∧ s.loadLog = [] ∧
    ∀ t ∈ s.threads, t.pc = CachePC.start

/-- Inductive invariant of the double-checked-lock system. -/
structure CacheInv (s : CacheSys) : Prop where
  lockOwn : ∀ (i : Nat) (t : CacheThread), s.threads[i]? = some t →
    CriticalPC t.pc → s.lock = some i
  loadMiss : ∀ (i : Nat) (t : CacheThread), s.threads[i]? = some t →
    t.pc = .loadReady → s.cache.lookup t.arg = none
  logNodup : (s.loadLog.map Prod.fst).Nodup
  logCache : ∀ p ∈ s.loadLog, s.cache.lookup p.1 = some p.2
  retCache : ∀ (i : Nat) (t : CacheThread) (v : Nat), s.threads[i]? = some t →
    t.pc = .finished v ∨ t.pc = .unlockReturn v → s.cache.lookup t.arg = some v

/-- Reading a possibly different slot of a thread pool after one slot was
updated. -/
theorem getElem?_set_split {α : Type} {l : List α} {i : Nat} {t : α} (t' : α)
    (h : l[i]? = some t) (j : Nat) :
    (l.set i t')[j]? = if i = j then some t' else l[j]? := by
  obtain ⟨hlt, -⟩ := List.getElem?_eq_some.mp h
  by_cases hij : i = j
  · subst hij
    simp [List.getElem?_set_self hlt]
  · simp [List.getElem?_set_ne hij, hij]

/-- Lookup in the cache dictionary after one binding was added in front. -/
theorem lookup_cons_split (c : List (String × Nat)) (n m : String) (v : Nat) :
    ((m, v) :: c).lookup n = if n = m then some v else c.lookup n := by
  by_cases h : n = m
  · have hb : (n == m) = true := beq_iff_eq.mpr h
    simp [List.lookup, hb, h]
  · have hb : (n == m) = false := beq_eq_false_iff_ne.mpr h
    simp [List.lookup, hb, h]

/-- The invariant holds in every initial process state. -/
theorem cacheInv_init {s : CacheSys} (h : CacheInit s) : CacheInv s := by
  obtain ⟨hc, hl, hlog, hth⟩ := h
  refine ⟨?_, ?_, ?_, ?_, ?_⟩
  · intro i t ht hcrit
    rw [hth t (List.getElem?_mem ht)] at hcrit
    exact absurd hcrit (by simp [CriticalPC])
  · intro i t ht hpc
    rw [hth t (List.getElem?_mem ht)] at hpc
    exact absurd hpc (by simp)
  · simp [hlog]
  · intro p hp
    rw [hlog] at hp
    exact absurd hp (by simp)
  · intro i t v ht hpc
    rcases hpc with hpc | hpc <;> rw [hth t (List.getElem?_mem ht)] at hpc <;>
      exact absurd hpc (by simp)

/-- The invariant is preserved by every atomic step. -/
theorem cacheInv_step {s s' : CacheSys} (hinv : CacheInv s)
    (hstep : CacheStep s s') : CacheInv s' := by
  obtain ⟨lockOwn, loadMiss, logNodup, logCache, retCache⟩ := hinv
  cases hstep with
  | fastHit i t v ht hpc hv =>
    refine ⟨?_, ?_, logNodup, logCache, ?_⟩
    · intro j u hju hcrit
      rw [getElem?_set_split _ ht j] at hju
      split at hju
      · cases hju
        exact absurd hcrit (by simp [CriticalPC])
      · exact lockOwn j u hju hcrit
    · intro j u hju hu
      rw [getElem?_set_split _ ht j] at hju
      split at hju
      · cases hju
        exact absurd hu (by simp)
      · exact loadMiss j u hju hu
    · intro j u w hju hu
      rw [getElem?_set_split _ ht j] at hju
      split at hju
      · cases hju
        rcases hu with hu | hu
        · cases hu
          exact hv
        · exact absurd hu (by simp)
      · exact retCache j u w hju hu
  | fastMiss i t ht hpc hv =>
    refine ⟨?_, ?_, logNodup, logCache, ?_⟩
    · intro j u hju hcrit
      rw [getElem?_set_split _ ht j] at hju
      split at hju
      · cases hju
        exact absurd hcrit (by simp [CriticalPC])
      · exact lockOwn j u hju hcrit
    · intro j u hju hu
      rw [getElem?_set_split _ ht j] at hju
      split at hju
      · cases hju
        exact absurd hu (by simp)
      · exact loadMiss j u hju hu
    · intro j u w hju hu
      rw [getElem?_set_split _ ht j] at hju
      split at hju
      · cases hju
        rcases hu with hu | hu <;> exact absurd hu (by simp)
      · exact retCache j u w hju hu
  | acquire i t ht hpc hl =>
    refine ⟨?_, ?_, logNodup, logCache, ?_⟩
    · intro j u hju hcrit
      rw [getElem?_set_split _ ht j] at hju
      split at hju
      next hij =>
        subst hij
        rfl
      next =>
        have := lockOwn j u hju hcrit
        rw [hl] at this
        cases this
    · intro j u hju hu
      rw [getElem?_set_split _ ht j] at hju
      split at hju
      · cases hju
        exact absurd hu (by simp)
      · exact loadMiss j u hju hu
    · intro j u w hju hu
      rw [getElem?_set_split _ ht j] at hju
      split at hju
      · cases hju
        rcases hu with hu | hu <;> exact absurd hu (by simp)
      · exact retCache j u w hju hu
  | recheckHit i t v ht hpc hv =>
    refine ⟨?_, ?_, logNodup, logCache, ?_⟩
    · intro j u hju hcrit
      rw [getElem?_set_split _ ht j] at hju
      split at hju
      next hij =>
        subst hij
        exact lockOwn i t ht (by rw [hpc]; trivial)
      next => exact lockOwn j u hju hcrit
    · intro j u hju hu
      rw [getElem?_set_split _ ht j] at hju
      split at hju
      · cases hju
        exact absurd hu (by simp)
      · exact loadMiss j u hju hu
    · intro j u w hju hu
      rw [getElem?_set_split _ ht j] at hju
      split at hju
      · cases hju
        rcases hu with hu | hu
        · exact absurd hu (by simp)
        · cases hu
          exact hv
      · exact retCache j u w hju hu
  | recheckMiss i t ht hpc hv =>
    refine ⟨?_, ?_, logNodup, logCache, ?_⟩
    · intro j u hju hcrit
      rw [getElem?_set_split _ ht j] at hju
      split at hju
      next hij =>
        subst hij
        exact lockOwn i t ht (by rw [hpc]; trivial)
      next => exact lockOwn j u hju hcrit
    · intro j u hju hu
      rw [getElem?_set_split _ ht j] at hju
      split at hju
      · cases hju
        exact hv
      · exact loadMiss j u hju hu
    · intro j u w hju hu
      rw [getElem?_set_split _ ht j] at hju
      split at hju
      · cases hju
        rcases hu with hu | hu <;> exact absurd hu (by simp)
      · exact retCache j u w hju hu
  | load i t ht hpc =>
    have hmiss : s.cache.lookup t.arg = none := loadMiss i t ht hpc
    have hlock : s.lock = some i := lockOwn i t ht (by rw [hpc]; trivial)
    have hfresh : t.arg ∉ s.loadLog.map Prod.fst := by
      intro hmem
      obtain ⟨p, hp, hfst⟩ := List.mem_map.mp hmem
      have := logCache p hp
      rw [hfst, hmiss] at this
      cases this
    refine ⟨?_, ?_, ?_, ?_, ?_⟩
    · intro j u hju hcrit
      rw [getElem?_set_split _ ht j] at hju
      split at hju
      next hij =>
        subst hij
        exact hlock
      next => exact lockOwn j u hju hcrit
    · intro j u hju hu
      rw [getElem?_set_split _ ht j] at hju
      split at hju
      · cases hju
        exact absurd hu (by simp)
      next hij =>
        have := lockOwn j u hju (by rw [hu]; trivial)
        rw [hlock] at this
        cases this
        exact absurd rfl hij
    · simp only [List.map_append, List.map_cons, List.map_nil]
      rw [List.nodup_append]
      exact ⟨logNodup, List.nodup_singleton _, by
        intro a ha hb
        rw [List.mem_singleton] at hb
        subst hb
        exact hfresh ha⟩
    · intro p hp
      rw [List.mem_append] at hp
      rcases hp with hp | hp
      · have hold := logCache p hp
        rw [lookup_cons_split]
        split
        next heq =>
          rw [heq, hmiss] at hold
          cases hold
        next => exact hold
      · rw [List.mem_singleton] at hp
        subst hp
        rw [lookup_cons_split]
        simp
    · intro j u w hju hu
      rw [getElem?_set_split _ ht j] at hju
      split at hju
      · cases hju
        rcases hu with hu | hu
        · exact absurd hu (by simp)
        · cases hu
          rw [lookup_cons_split]
          simp
      · have hold := retCache j u w hju hu
        rw [lookup_cons_split]
        split
        next heq =>
          rw [heq, hmiss] at hold
          cases hold
        next => exact hold
  | release i t v ht hpc =>
    have hlock : s.lock = some i := lockOwn i t ht (by rw [hpc]; trivial)
    refine ⟨?_, ?_, logNodup, logCache, ?_⟩
    · intro j u hju hcrit
      rw [getElem?_set_split _ ht j] at hju
      split at hju
      · cases hju
        exact absurd hcrit (by simp [CriticalPC])
      next hij =>
        have := lockOwn j u hju hcrit
        rw [hlock] at this
        cases this
        exact absurd rfl hij
    · intro j u hju hu
      rw [getElem?_set_split _ ht j] at hju
      split at hju
      · cases hju
        exact absurd hu (by simp)
      · exact loadMiss j u hju hu
    · intro j u w hju hu
      rw [getElem?_set_split _ ht j] at hju
      split at hju
      · cases hju
        rcases hu with hu | hu
        · cases hu
          exact retCache i t v ht (Or.inr hpc)
        · exact absurd hu (by simp)
      · exact retCache j u w hju hu

/-- The invariant holds in every state reachable from an initial state. -/
theorem cacheInv_reachable {s0 s : CacheSys} (h0 : CacheInit s0)
    (hr : Relation.ReflTransGen CacheStep s0 s) : CacheInv s := by
  induction hr with
  | refl => exact cacheInv_init h0
  | tail _ hstep ih => exact cacheInv_step ih hstep

/-- Cache entries are never removed or replaced: a binding visible before a
step is visible unchanged after it (in invariant states). -/
theorem cache_lookup_monotone {s s' : CacheSys} (hinv : CacheInv s)
    (hstep : CacheStep s s') :
    ∀ (n : String) (v : Nat), s.cache.lookup n = some v →
      s'.cache.lookup n = some v := by
  intro n v hv
  cases hstep with
  | load i t ht hpc =>
    have hmiss := hinv.loadMiss i t ht hpc
    show ((t.arg, s.nextInstance) :: s.cache).lookup n = some v
    rw [lookup_cons_split]
    split
    next heq =>
      rw [heq, hmiss] at hv
      cases hv
    next => exact hv
  | fastHit i t w ht hpc hw => exact hv
  | fastMiss i t ht hpc hw => exact hv
  | acquire i t ht hpc hl => exact hv
  | recheckHit i t w ht hpc hw => exact hv
  | recheckMiss i t ht hpc hw => exact hv
  | release i t w ht hpc => exact hv

/-- Any entry of a search result is either the sentinel pad or carries the
id of a stored record. -/
theorem search_mem_or_sentinel (idx : FaissNativeIndex) (q : List Int) (k : Nat) :
    ∀ r ∈ idx.search q k,
      r = (paddingDistance, -1) ∨ r.2 ∈ idx.records.map Prod.fst := by
  intro r hr
  unfold FaissNativeIndex.search at hr
  rw [List.mem_append] at hr
  rcases hr with hr | hr
  · right
    have hs := List.mem_of_mem_take hr
    have hm := (List.perm_insertionSort distLE _).mem_iff.mp hs
    obtain ⟨a, ha, hae⟩ := List.mem_map.mp hm
    exact List.mem_map.mpr ⟨a, ha, by rw [← hae]⟩
  · left
    exact List.eq_of_mem_replicate hr

/-- Sorting scored records by distance and projecting to the distance is
the same as sorting the distances. -/
theorem map_fst_insertionSort_distLE (l : List (Int × Int)) :
    (l.insertionSort distLE).map Prod.fst =
      (l.map Prod.fst).insertionSort (· ≤ ·) := by
  have hp : List.Perm ((l.insertionSort distLE).map Prod.fst)
      ((l.map Prod.fst).insertionSort (· ≤ ·)) :=
    ((List.perm_insertionSort distLE l).map Prod.fst).trans
      (List.perm_insertionSort (· ≤ ·) (l.map Prod.fst)).symm
  have hs1 : List.Sorted (· ≤ ·) ((l.insertionSort distLE).map Prod.fst) :=
    List.Pairwise.map Prod.fst (fun a b h => h)
      (List.sorted_insertionSort distLE l)
  have hs2 : List.Sorted (· ≤ ·) ((l.map Prod.fst).insertionSort (· ≤ ·)) :=
    List.sorted_insertionSort _ _
  exact List.eq_of_perm_of_sorted hp hs1 hs2

/-- The sorted scored list has one entry per stored record. -/
theorem length_insertionSort_scored (idx : FaissNativeIndex) (q : List Int) :
    ((idx.records.map (fun r => (sqDist q r.2, r.1))).insertionSort distLE).length
      = idx.records.length := by
  rw [(List.perm_insertionSort distLE _).length_eq, List.length_map]

/-- Concrete model universe used by the closed witnesses: every model embeds
every text to `[0, 0]` in dimension 2. -/
def muW : ModelUniverse := { encode := fun _ _ => [0, 0], dim := fun _ => 2 }

/-- Concrete empty filesystem used by the closed witnesses. -/
def fsNone : Filesystem := fun _ => none

/-- Concrete embedder used by the closed witnesses. -/
def embW : SentenceEmbedder := { model_name := "m", encode := fun _ => [1, 1], dims := 2 }

/-- Concrete persister used by the closed witnesses. -/
def persisterW : Persister :=
  { base_path := "/base", read_bin_file := fun _ => ⟨newIdMapFlatL2 2⟩ }

/-- Concrete trained flat index stored in the `.faiss` file of the C1
scenario (the only index type this repository ever writes). -/
def natW : FaissNativeIndex := { dim := 2, records := [(1, [0, 0])], is_trained := true }

/-- Filesystem holding exactly the C1 scenario's index file. -/
def fsC1 : Filesystem :=
  fun p => if p = "/base/col/indexes/n/indexer.faiss" then some (.ok natW) else none

/-- Concrete writable indexer with ids {1, 2, 3} used by the witnesses. -/
def xW : FaissIndexer :=
  { name := "w", embedder := embW, use_memory_map := false, index_file_path := none
    faiss_index := { dim := 1, records := [(1, [0]), (2, [3]), (3, [6])], is_trained := true } }

/-- Initial two-thread process state used by the C9 witness: both threads
about to call `_get_or_load_model("X")`. -/
def cacheSysW : CacheSys :=
  { cache := [], lock := none, loadLog := [], nextInstance := 0
    threads := [⟨"X", CachePC.start⟩, ⟨"X", CachePC.start⟩] }

/-- The C9 witness state is initial. -/
theorem cacheSysW_init : CacheInit cacheSysW := by
  refine ⟨rfl, rfl, rfl, ?_⟩
  decide

/-- Removing ids from a writable index (one built with
`use_memory_map=False`) delegates to the native `remove_ids`. -/
theorem remove_ids_writable (y : FaissIndexer) (ids : List Int)
    (hy : y.use_memory_map = false) :
    y.remove_ids ids = .ok { y with faiss_index := y.faiss_index.remove_ids ids } := by
  simp [FaissIndexer.remove_ids, hy]

/-- C2: every indexer returned by `create_indexer` carries the
constructor's default `use_memory_map=True`, so `remove_ids` raises
`RuntimeError` on it for every argument; an indexer with
`use_memory_map=False` (the raw-blob load path) is the one whose
`remove_ids` succeeds. -/
theorem C2_create_indexer_remove_always_raises (mu : ModelUniverse)
    (fs : Filesystem) (name : String) (idxr : FaissIndexer)
    (h : (create_indexer mu fs name).1 = .ok idxr) :
    idxr.use_memory_map = true
    ∧ (∀ ids : List Int, idxr.remove_ids ids =
        .error (.runtimeError "Cannot modify memory-mapped read-only index"))
    ∧ (∀ (y : FaissIndexer) (ids : List Int), y.use_memory_map = false →
        y.remove_ids ids = .ok { y with faiss_index := y.faiss_index.remove_ids ids }) := by
  have key : idxr.use_memory_map = true := by
    unfold create_indexer at h
    split at h
    · injection h with h2
      subst h2
      rfl
    · split at h
      · injection h with h2
        subst h2
        rfl
      · split at h
        · injection h with h2
          subst h2
          rfl
        · injection h
  refine ⟨key, ?_, fun y ids hy => remove_ids_writable y ids hy⟩
  intro ids
  simp [FaissIndexer.remove_ids, key]

/-- The indexer value `create_indexer` returns for the first registry
name over the witness model universe. -/
def idxrW : FaissIndexer :=
  { name := "indexer_FAISS_IndexFlatL2__embeddings_all-MiniLM-L6-v2"
    embedder := mkSentenceEmbedder muW "sentence-transformers/all-MiniLM-L6-v2"
    use_memory_map := true, index_file_path := none
    faiss_index := newIdMapFlatL2 2 }

/-- Witness for C2 at a concrete registered name. -/
theorem C2_create_indexer_remove_always_raises_witness :
    (create_indexer muW fsNone
        "indexer_FAISS_IndexFlatL2__embeddings_all-MiniLM-L6-v2").1 = .ok idxrW
    ∧ idxrW.use_memory_map = true
    ∧ idxrW.remove_ids [5] =
        .error (.runtimeError "Cannot modify memory-mapped read-only index") := by
  have h : (create_indexer muW fsNone
      "indexer_FAISS_IndexFlatL2__embeddings_all-MiniLM-L6-v2").1 = .ok idxrW := rfl
  exact ⟨h, (C2_create_indexer_remove_always_raises muW fsNone _ idxrW h).1,
    (C2_create_indexer_remove_always_raises muW fsNone _ idxrW h).2.1 [5]⟩

/-- C4: when `faiss.read_index` on the existing index file raises, the
constructor falls back to deserializing the raw blob when one was passed,
and re-raises the original exception unchanged when none was. -/
theorem C4_read_index_fallback (fs : Filesystem) (p name : String)
    (emb : SentenceEmbedder) (b : Blob) (e : PyError)
    (hp : p ≠ "") (hfs : fs p = some (.error e)) :
    FaissIndexer.init fs name emb (some b) (some p) true =
      .ok { name := name, embedder := emb, use_memory_map := true
            index_file_path := some p, faiss_index := deserialize_index b }
    ∧ FaissIndexer.init fs name emb none (some p) true = .error e := by
  constructor
  · simp [FaissIndexer.init, pyTruthy, pathExists, hp, hfs]
  · simp [FaissIndexer.init, pyTruthy, pathExists, hp, hfs]

/-- Witness for C4: a file whose read raises, with and without a blob. -/
theorem C4_read_index_fallback_witness :
    FaissIndexer.init (fun _ => some (.error (.externalError "corrupt")))
        "n" embW (some ⟨natW⟩) (some "/f") true =
      .ok { name := "n", embedder := embW, use_memory_map := true
            index_file_path := some "/f", faiss_index := deserialize_index ⟨natW⟩ }
    ∧ FaissIndexer.init (fun _ => some (.error (.externalError "corrupt")))
        "n" embW none (some "/f") true = .error (.externalError "corrupt") :=
  C4_read_index_fallback (fun _ => some (.error (.externalError "corrupt")))
    "/f" "n" embW ⟨natW⟩ (.externalError "corrupt") (by decide) rfl

/-- C5: a name outside the three-name registry makes both factory entry
points raise `ValueError` with an empty effect trace: no file-existence
probe, no byte-store read, no index-file read and no embedder
construction happened before the failure. -/
theorem C5_unknown_name_rejected_before_io (mu : ModelUniverse)
    (fs : Filesystem) (persister : Persister) (collection name : String)
    (umm ro : Bool)
    (h1 : name ≠ "indexer_FAISS_IndexFlatL2__embeddings_all-MiniLM-L6-v2")
    (h2 : name ≠ "indexer_FAISS_IndexFlatL2__embeddings_all-mpnet-base-v2")
    (h3 : name ≠ "indexer_FAISS_IndexFlatL2__embeddings_multi-qa-distilbert-cos-v1") :
    create_indexer mu fs name =
      (.error (.valueError ("Unknown indexer name: " ++ name)), [])
    ∧ load_indexer mu fs name collection persister umm ro =
      (.error (.valueError ("Unknown indexer name: " ++ name)), []) := by
  constructor
  · unfold create_indexer
    simp [h1, h2, h3]
  · unfold load_indexer loadIndexerModelName
    simp [h1, h2, h3]

/-- Witness for C5 at the spec's own example name. -/
theorem C5_unknown_name_rejected_before_io_witness :
    create_indexer muW fsNone "not-a-real-indexer" =
      (.error (.valueError ("Unknown indexer name: " ++ "not-a-real-indexer")), [])
    ∧ load_indexer muW fsNone "not-a-real-indexer" "col" persisterW true true =
      (.error (.valueError ("Unknown indexer name: " ++ "not-a-real-indexer")), []) :=
  C5_unknown_name_rejected_before_io muW fsNone persisterW "col"
    "not-a-real-indexer" true true (by decide) (by decide) (by decide)

/-- C10: constructing with `use_memory_map=True`, an `index_file_path`
that does not exist, and no serialized blob silently creates a brand-new
empty id-mapped flat-L2 index of the embedder's dimension — the same
index the constructor builds when no file is requested at all. -/
theorem C10_missing_file_creates_new_index (fs : Filesystem)
    (p name : String) (emb : SentenceEmbedder) (hfs : fs p = none) :
    FaissIndexer.init fs name emb none (some p) true =
      .ok { name := name, embedder := emb, use_memory_map := true
            index_file_path := some p
            faiss_index := newIdMapFlatL2 emb.get_number_of_dimensions }
    ∧ (∀ idxr : FaissIndexer,
        FaissIndexer.init fs name emb none (some p) true = .ok idxr →
          idxr.get_size = 0)
    ∧ (FaissIndexer.init fs name emb none (some p) true).map FaissIndexer.faiss_index
      = (FaissIndexer.init fs name emb none none true).map FaissIndexer.faiss_index := by
  have h1 : FaissIndexer.init fs name emb none (some p) true =
      .ok { name := name, embedder := emb, use_memory_map := true
            index_file_path := some p
            faiss_index := newIdMapFlatL2 emb.get_number_of_dimensions } := by
    simp [FaissIndexer.init, pathExists, hfs]
  refine ⟨h1, ?_, ?_⟩
  · intro idxr hid
    rw [h1] at hid
    injection hid with h2
    subst h2
    rfl
  · rw [h1]
    rfl

/-- Witness for C10 on the empty filesystem. -/
theorem C10_missing_file_creates_new_index_witness :
    FaissIndexer.init fsNone "n" embW none (some "/missing") true =
      .ok { name := "n", embedder := embW, use_memory_map := true
            index_file_path := some "/missing"
            faiss_index := newIdMapFlatL2 embW.get_number_of_dimensions }
    ∧ (∀ idxr : FaissIndexer,
        FaissIndexer.init fsNone "n" embW none (some "/missing") true = .ok idxr →
          idxr.get_size = 0)
    ∧ (FaissIndexer.init fsNone "n" embW none (some "/missing") true).map
        FaissIndexer.faiss_index
      = (FaissIndexer.init fsNone "n" embW none none true).map FaissIndexer.faiss_index :=
  C10_missing_file_creates_new_index fsNone "/missing" "n" embW rfl

/-- Joined paths are never the empty string, so an `index_file_path`
produced by `load_indexer` is always truthy. -/
theorem pathJoin_ne_empty (a b : String) : pathJoin a b ≠ "" := by
  intro h
  have hone : ("/" : String).length = 1 := rfl
  have hlen := congrArg String.length h
  simp [pathJoin, String.length_append, hone] at hlen

/-- C3: for a registered name, `load_indexer` opens the index from
`<base_path>/<collection>/indexes/<name>/indexer.faiss` with
`use_memory_map=True` exactly when the caller wants memory-mapping, is
read-only and that file exists; in every other case it reads the raw blob
from the byte store at `<collection>/indexes/<name>/indexer` via
`read_bin_file` and deserializes it fully, with `use_memory_map=False`. -/
theorem C3_load_resolution_order (mu : ModelUniverse) (fs : Filesystem)
    (persister : Persister) (collection name model_name : String)
    (umm ro : Bool) (hm : loadIndexerModelName name = some model_name) :
    (∀ nat : FaissNativeIndex,
      umm = true → ro = true →
      fs (pathJoin persister.base_path
          (collection ++ "/indexes/" ++ name ++ "/indexer.faiss")) = some (.ok nat) →
      load_indexer mu fs name collection persister umm ro =
        (.ok { name := name, embedder := mkSentenceEmbedder mu model_name
               use_memory_map := true
               index_file_path := some (pathJoin persister.base_path
                 (collection ++ "/indexes/" ++ name ++ "/indexer.faiss"))
               faiss_index := nat },
         [Effect.constructEmbedder model_name,
          Effect.checkPathExists (pathJoin persister.base_path
            (collection ++ "/indexes/" ++ name ++ "/indexer.faiss")),
          Effect.readIndexFile (pathJoin persister.base_path
            (collection ++ "/indexes/" ++ name ++ "/indexer.faiss"))]))
    ∧ ((umm = false ∨ ro = false ∨
        fs (pathJoin persister.base_path
          (collection ++ "/indexes/" ++ name ++ "/indexer.faiss")) = none) →
      load_indexer mu fs name collection persister umm ro =
        (.ok { name := name, embedder := mkSentenceEmbedder mu model_name
               use_memory_map := false, index_file_path := none
               faiss_index := deserialize_index (persister.read_bin_file
                 (collection ++ "/indexes/" ++ name ++ "/indexer")) },
         [Effect.constructEmbedder model_name]
           ++ (if umm && ro then
                [Effect.checkPathExists (pathJoin persister.base_path
                  (collection ++ "/indexes/" ++ name ++ "/indexer.faiss"))] else [])
           ++ [Effect.readBinFile (collection ++ "/indexes/" ++ name ++ "/indexer")])) := by
  constructor
  · intro nat hu hr hfs
    subst hu
    subst hr
    have hne := pathJoin_ne_empty persister.base_path
      (collection ++ "/indexes/" ++ name ++ "/indexer.faiss")
    unfold load_indexer
    rw [hm]
    simp only [String.append_assoc] at hfs hne ⊢
    simp [pathExists, hfs, FaissIndexer.init, pyTruthy, hne]
  · intro hcase
    unfold load_indexer
    rw [hm]
    rcases hcase with hu | hr | hfs
    · subst hu
      simp [pathExists, FaissIndexer.init, pyTruthy]
    · subst hr
      simp [pathExists, FaissIndexer.init, pyTruthy]
    · simp only [String.append_assoc] at hfs ⊢
      simp [pathExists, hfs, FaissIndexer.init, pyTruthy]

/-- Filesystem for the C3 witness: exactly the conventional `.faiss` path
of collection `col` and the first registry name is present. -/
def fsC3 : Filesystem :=
  fun p =>
    if p = "/base/col/indexes/indexer_FAISS_IndexFlatL2__embeddings_all-MiniLM-L6-v2/indexer.faiss"
    then some (.ok natW) else none

/-- Witness for C3: both resolution branches at concrete inputs. -/
theorem C3_load_resolution_order_witness :
    (load_indexer muW fsC3 "indexer_FAISS_IndexFlatL2__embeddings_all-MiniLM-L6-v2"
        "col" persisterW true true =
      (.ok { name := "indexer_FAISS_IndexFlatL2__embeddings_all-MiniLM-L6-v2"
             embedder := mkSentenceEmbedder muW "sentence-transformers/all-MiniLM-L6-v2"
             use_memory_map := true
             index_file_path := some (pathJoin persisterW.base_path
               ("col" ++ "/indexes/" ++ "indexer_FAISS_IndexFlatL2__embeddings_all-MiniLM-L6-v2"
                 ++ "/indexer.faiss"))
             faiss_index := natW },
       [Effect.constructEmbedder "sentence-transformers/all-MiniLM-L6-v2",
        Effect.checkPathExists (pathJoin persisterW.base_path
          ("col" ++ "/indexes/" ++ "indexer_FAISS_IndexFlatL2__embeddings_all-MiniLM-L6-v2"
            ++ "/indexer.faiss")),
        Effect.readIndexFile (pathJoin persisterW.base_path
          ("col" ++ "/indexes/" ++ "indexer_FAISS_IndexFlatL2__embeddings_all-MiniLM-L6-v2"
            ++ "/indexer.faiss"))]))
    ∧ (load_indexer muW fsNone "indexer_FAISS_IndexFlatL2__embeddings_all-MiniLM-L6-v2"
        "col" persisterW false true =
      (.ok { name := "indexer_FAISS_IndexFlatL2__embeddings_all-MiniLM-L6-v2"
             embedder := mkSentenceEmbedder muW "sentence-transformers/all-MiniLM-L6-v2"
             use_memory_map := false, index_file_path := none
             faiss_index := deserialize_index (persisterW.read_bin_file
               ("col" ++ "/indexes/" ++ "indexer_FAISS_IndexFlatL2__embeddings_all-MiniLM-L6-v2"
                 ++ "/indexer")) },
       [Effect.constructEmbedder "sentence-transformers/all-MiniLM-L6-v2"]
         ++ (if false && true then
              [Effect.checkPathExists (pathJoin persisterW.base_path
                ("col" ++ "/indexes/" ++ "indexer_FAISS_IndexFlatL2__embeddings_all-MiniLM-L6-v2"
                  ++ "/indexer.faiss"))] else [])
         ++ [Effect.readBinFile
              ("col" ++ "/indexes/" ++ "indexer_FAISS_IndexFlatL2__embeddings_all-MiniLM-L6-v2"
                ++ "/indexer")])) :=
  ⟨(C3_load_resolution_order muW fsC3 persisterW "col"
      "indexer_FAISS_IndexFlatL2__embeddings_all-MiniLM-L6-v2"
      "sentence-transformers/all-MiniLM-L6-v2" true true rfl).1 natW rfl rfl rfl,
   (C3_load_resolution_order muW fsNone persisterW "col"
      "indexer_FAISS_IndexFlatL2__embeddings_all-MiniLM-L6-v2"
      "sentence-transformers/all-MiniLM-L6-v2" false true rfl).2 (Or.inl rfl)⟩

/-- C7: reloading an index from its own serialized blob, or from the file
`save_to_file` just wrote, yields an indexer whose `search` answers every
query exactly as the original did (the model's serialization is lossless,
so the results are identical, not merely within tolerance). -/
theorem C7_save_load_round_trip (fs : Filesystem) (x : FaissIndexer)
    (p text : String) (k : Nat) (hp : p ≠ "") :
    (FaissIndexer.init fs x.name x.embedder (some x.serialize) none false).map
        (fun y => y.search text k) = .ok (x.search text k)
    ∧ (FaissIndexer.init (x.save_to_file fs p) x.name x.embedder none (some p) true).map
        (fun y => y.search text k) = .ok (x.search text k) := by
  constructor
  · simp [FaissIndexer.init, pyTruthy, FaissIndexer.serialize, serialize_index,
      deserialize_index, FaissIndexer.search, Except.map]
  · simp [FaissIndexer.init, pyTruthy, hp, pathExists, FaissIndexer.save_to_file,
      FaissIndexer.search, Except.map]

/-- Witness for C7 on the concrete writable indexer. -/
theorem C7_save_load_round_trip_witness :
    (FaissIndexer.init fsNone xW.name xW.embedder (some xW.serialize) none false).map
        (fun y => y.search "q" 2) = .ok (xW.search "q" 2)
    ∧ (FaissIndexer.init (xW.save_to_file fsNone "/f") xW.name xW.embedder
          none (some "/f") true).map
        (fun y => y.search "q" 2) = .ok (xW.search "q" 2) :=
  C7_save_load_round_trip fsNone xW "/f" "q" 2 (by decide)

/-- C6: on a writable index, removing an absent id is a no-op returning the
index unchanged; and on any writable index holding exactly the ids
{1, 2, 3}, `remove_ids [2]` succeeds, the size drops to 2, and no search
result ever carries id 2 again. -/
theorem C6_remove_noop_and_removal (x : FaissIndexer)
    (h : x.use_memory_map = false) :
    (∀ i : Int, i ∉ x.faiss_index.records.map Prod.fst → x.remove_ids [i] = .ok x)
    ∧ (x.faiss_index.records.map Prod.fst = [1, 2, 3] →
        ∃ y : FaissIndexer, x.remove_ids [2] = .ok y ∧ y.get_size = 2 ∧
          ∀ (t : String) (k : Nat) (r : Int × Int), r ∈ y.search t k → r.2 ≠ 2) := by
  constructor
  · intro i hi
    rw [remove_ids_writable x [i] h]
    have hfix : x.faiss_index.records.filter (fun r => !(([i] : List Int).contains r.1))
        = x.faiss_index.records := by
      rw [List.filter_eq_self]
      intro a ha
      have : a.1 ≠ i := by
        intro hai
        exact hi (List.mem_map.mpr ⟨a, ha, hai⟩)
      simp [this]
    show Except.ok { x with faiss_index := { x.faiss_index with
      records := x.faiss_index.records.filter (fun r => !(([i] : List Int).contains r.1)) } }
        = .ok x
    rw [hfix]
  · intro hids
    refine ⟨{ x with faiss_index := x.faiss_index.remove_ids [2] },
      remove_ids_writable x [2] h, ?_, ?_⟩
    · show (x.faiss_index.records.filter
          (fun r => !(([2] : List Int).contains r.1))).length = 2
      rw [← List.countP_eq_length_filter]
      have hcm : List.countP (fun r : Int × List Int => !(([2] : List Int).contains r.1))
          x.faiss_index.records
          = List.countP (fun a => !(([2] : List Int).contains a))
              (x.faiss_index.records.map Prod.fst) :=
        (List.countP_map (fun a => !(([2] : List Int).contains a)) Prod.fst
          x.faiss_index.records).symm
      rw [hcm, hids]
      decide
    · intro t k r hr
      have hmem := search_mem_or_sentinel
        (x.faiss_index.remove_ids [2]) (x.embedder.embed t) k r hr
      rcases hmem with hpad | hid
      · rw [hpad]
        decide
      · intro h2
        rw [h2] at hid
        obtain ⟨a, ha, ha2⟩ := List.mem_map.mp hid
        have ha' := List.of_mem_filter ha
        rw [ha2] at ha'
        simp at ha'

/-- Witness for C6 on the concrete writable indexer with ids {1, 2, 3}. -/
theorem C6_remove_noop_and_removal_witness :
    xW.remove_ids [7] = .ok xW
    ∧ (∃ y : FaissIndexer, xW.remove_ids [2] = .ok y ∧ y.get_size = 2 ∧
        ∀ (t : String) (k : Nat) (r : Int × Int), r ∈ y.search t k → r.2 ≠ 2) :=
  ⟨(C6_remove_noop_and_removal xW rfl).1 7 (by decide),
   (C6_remove_noop_and_removal xW rfl).2 (by decide)⟩

/-- What the native flat search guarantees: result length is exactly `k`;
the real slots are the `k` smallest distances in ascending order, carrying
ids of stored records; the remaining slots are sentinel `(_, -1)` fills. -/
theorem native_search_spec (idx : FaissNativeIndex) (q : List Int) (k : Nat) :
    (idx.search q k).length = k
    ∧ ((idx.search q k).take (min k idx.ntotal)).map Prod.fst
      = ((idx.records.map (fun r => sqDist q r.2)).insertionSort (· ≤ ·)).take k
    ∧ (((idx.search q k).take (min k idx.ntotal)).map Prod.fst).Sorted (· ≤ ·)
    ∧ (∀ r ∈ (idx.search q k).take (min k idx.ntotal),
        ∃ a ∈ idx.records, a.1 = r.2 ∧ sqDist q a.2 = r.1)
    ∧ (idx.search q k).drop (min k idx.ntotal)
      = List.replicate (k - idx.ntotal) (paddingDistance, -1) := by
  set scored := idx.records.map (fun r => (sqDist q r.2, r.1)) with hscored
  set sorted := scored.insertionSort distLE with hsorted
  have hslen : sorted.length = idx.ntotal := by
    rw [hsorted, (List.perm_insertionSort distLE scored).length_eq, hscored,
      List.length_map]
    rfl
  have hAlen : (sorted.take k).length = min k idx.ntotal := by
    rw [List.length_take, hslen]
  have hres : idx.search q k = sorted.take k
      ++ List.replicate (k - sorted.length) (paddingDistance, -1) := rfl
  have htake : (idx.search q k).take (min k idx.ntotal) = sorted.take k := by
    rw [hres]
    exact List.take_left' hAlen
  have hdrop : (idx.search q k).drop (min k idx.ntotal)
      = List.replicate (k - sorted.length) (paddingDistance, -1) := by
    rw [hres]
    exact List.drop_left' hAlen
  have hmapfst : sorted.map Prod.fst
      = (idx.records.map (fun r => sqDist q r.2)).insertionSort (· ≤ ·) := by
    rw [hsorted, map_fst_insertionSort_distLE, hscored, List.map_map]
    rfl
  refine ⟨?_, ?_, ?_, ?_, ?_⟩
  · rw [hres, List.length_append, List.length_replicate, List.length_take, hslen]
    omega
  · rw [htake, List.map_take, hmapfst]
  · rw [htake, List.map_take, hmapfst]
    exact List.Pairwise.sublist (List.take_sublist _ _)
      (List.sorted_insertionSort _ _)
  · intro r hr
    rw [htake] at hr
    have h1 := List.mem_of_mem_take hr
    have h2 := (List.perm_insertionSort distLE scored).mem_iff.mp h1
    rw [hscored] at h2
    obtain ⟨a, ha, hae⟩ := List.mem_map.mp h2
    exact ⟨a, ha, by rw [← hae], by rw [← hae]⟩
  · rw [hdrop, hslen]

/-- C8: `search(text, k)` always returns `k` slots; the first
`min k size` slots are the `k` nearest stored records by (squared) L2
distance to the embedded query, in ascending distance order, carrying ids
of stored records; when the index holds fewer than `k` records, the
remaining `k - size` slots carry the sentinel id `-1`. -/
theorem C8_search_topk_and_sentinel (x : FaissIndexer) (text : String) (k : Nat) :
    (x.search text k).length = k
    ∧ ((x.search text k).take (min k x.get_size)).map Prod.fst
      = ((x.faiss_index.records.map
          (fun r => sqDist (x.embedder.embed text) r.2)).insertionSort (· ≤ ·)).take k
    ∧ (((x.search text k).take (min k x.get_size)).map Prod.fst).Sorted (· ≤ ·)
    ∧ (∀ r ∈ (x.search text k).take (min k x.get_size),
        ∃ a ∈ x.faiss_index.records,
          a.1 = r.2 ∧ sqDist (x.embedder.embed text) a.2 = r.1)
    ∧ (x.search text k).drop (min k x.get_size)
      = List.replicate (k - x.get_size) (paddingDistance, -1) :=
  native_search_spec x.faiss_index (x.embedder.embed text) k

/-- C1 (evaluation at the failing input): an indexer opened from an
existing `.faiss` file with `use_memory_map=True` holds a trained flat
index, so the guard `not self.faiss_index.is_trained` in `index_texts` is
false: the call does not raise, embeds the batch (one embedder
invocation) and adds the records, while `remove_ids` on the same indexer
does raise as the claim demands. -/
theorem C1_mmap_add_not_rejected :
    ∃ idxr : FaissIndexer,
      FaissIndexer.init fsC1 "n" embW none
          (some "/base/col/indexes/n/indexer.faiss") true = .ok idxr
      ∧ idxr.use_memory_map = true
      ∧ idxr.faiss_index.is_trained = true
      ∧ (idxr.index_texts [4] ["t"]).2 = 1
      ∧ (idxr.index_texts [4] ["t"]).1
          = .ok { idxr with faiss_index :=
              idxr.faiss_index.add_with_ids (idxr.embedder.embedBatch ["t"]) [4] }
      ∧ idxr.remove_ids [1]
          = .error (.runtimeError "Cannot modify memory-mapped read-only index") := by
  refine ⟨{ name := "n", embedder := embW, use_memory_map := true
            index_file_path := some "/base/col/indexes/n/indexer.faiss"
            faiss_index := natW }, ?_, rfl, rfl, rfl, rfl, rfl⟩
  rfl

/-- C9: in the double-checked-lock model of `_get_or_load_model`, along
every interleaving from an initial state: each model name is loaded at
most once (the load log has no repeated name); every thread that returned
got the unique cache entry for its name, so all callers with the same
name received the same instance; and cache entries are only ever added,
never removed or replaced. -/
theorem C9_model_cache_single_load (s0 s : CacheSys) (h0 : CacheInit s0)
    (hr : Relation.ReflTransGen CacheStep s0 s) :
    (s.loadLog.map Prod.fst).Nodup
    ∧ (∀ (i : Nat) (t : CacheThread) (v : Nat), s.threads[i]? = some t →
        t.pc = CachePC.finished v → s.cache.lookup t.arg = some v)
    ∧ (∀ (i j : Nat) (ti tj : CacheThread) (v w : Nat),
        s.threads[i]? = some ti → s.threads[j]? = some tj → ti.arg = tj.arg →
        ti.pc = CachePC.finished v → tj.pc = CachePC.finished w → v = w)
    ∧ (∀ s' : CacheSys, CacheStep s s' → ∀ (n : String) (v : Nat),
        s.cache.lookup n = some v → s'.cache.lookup n = some v) := by
  have hinv := cacheInv_reachable h0 hr
  refine ⟨hinv.logNodup, ?_, ?_, ?_⟩
  · intro i t v ht hpc
    exact hinv.retCache i t v ht (Or.inl hpc)
  · intro i j ti tj v w hti htj harg hpi hpj
    have h1 := hinv.retCache i ti v hti (Or.inl hpi)
    have h2 := hinv.retCache j tj w htj (Or.inl hpj)
    rw [harg] at h1
    rw [h1] at h2
    exact Option.some.inj h2
  · intro s' hstep
    exact cache_lookup_monotone hinv hstep

/-- Witness for C9: the two-thread initial state, via the empty
execution. -/
theorem C9_model_cache_single_load_witness :
    (cacheSysW.loadLog.map Prod.fst).Nodup
    ∧ (∀ (i : Nat) (t : CacheThread) (v : Nat), cacheSysW.threads[i]? = some t →
        t.pc = CachePC.finished v → cacheSysW.cache.lookup t.arg = some v)
    ∧ (∀ (i j : Nat) (ti tj : CacheThread) (v w : Nat),
        cacheSysW.threads[i]? = some ti → cacheSysW.threads[j]? = some tj →
        ti.arg = tj.arg →
        ti.pc = CachePC.finished v → tj.pc = CachePC.finished w → v = w)
    ∧ (∀ s' : CacheSys, CacheStep cacheSysW s' → ∀ (n : String) (v : Nat),
        cacheSysW.cache.lookup n = some v → s'.cache.lookup n = some v) :=
  C9_model_cache_single_load cacheSysW cacheSysW cacheSysW_init
    Relation.ReflTransGen.refl
